import Mathlib

/-!
Shallow embedding of the queue-processing worker (`src/worker.js`) of the
TradingView-webhook Telegram bot, together with proofs of the behavioural
claims about it.

The worker's observable behaviour is modelled as a trace of events
(heartbeat touches, queue polls, screenshot attempts, Telegram dispatches,
and database writes to a queue row's `status`/`log` fields).  External
effects whose outcome the worker merely reacts to (the screenshot of a
chart succeeding or failing, a Telegram send succeeding or failing) are
supplied by an oracle indexed by the message and channel loop counters
`i` and `j` of `processQueue`.  Serialized errors / responses
(`JSON.stringify` in the source) are the strings the oracle carries.
-/

namespace TVWorker

/-- JavaScript `String.prototype.split` with a one-character separator,
on the underlying character list.  `split` always returns a non-empty
array; empty fields are kept (`"a,,b".split(",") = ["a","","b"]`,
`"".split(",") = [""]`). -/
def jsSplitList (c : Char) : List Char → List (List Char)
  | [] => [[]]
  | x :: xs =>
    match jsSplitList c xs with
    | [] => [[]]
    | r :: rs => if x = c then [] :: r :: rs else (x :: r) :: rs

/-- JavaScript `s.split(c)` for a one-character separator `c`, on `String`. -/
def jsSplit (c : Char) (s : String) : List String :=
  (jsSplitList c s.data).map String.mk

/-- The expression `data.split(" ")[0]` from `processQueue` (worker.js line
105): the symbol used for screenshot acquisition.  Note the separator is the
literal space character, not general whitespace. -/
def symbolOf (data : String) : String :=
  (jsSplit ' ' data).headD ""

/-- The expression `message["channels"].split(",")` from `processQueue`
(worker.js line 104). -/
def channelsOf (channels : String) : List String :=
  jsSplit ',' channels

/-- JavaScript `a || b` for a nullable string `a`: `null`/`undefined` and the
empty string are falsy, so they fall through to `b`.  Used for
`timeframe || screenshot_settings.data` (worker.js line 118). -/
def jsOrElse (t : Option String) (d : String) : String :=
  match t with
  | none => d
  | some s => if s = "" then d else s

/-- A `Setting` row as the worker reads it: the `data` string payload and the
`enabled` flag. -/
structure Setting where
  data : String
  enabled : Bool
  deriving DecidableEq

/-- A `Message` queue row as fetched with `status = "pending"`: the fields the
worker reads before processing it. -/
structure QMessage where
  id : Nat
  data : String
  timeframe : Option String
  channels : String
  deriving DecidableEq

/-- The two ways one poll cycle can abort: dereferencing a missing
`telegram:bot` row (worker.js line 96) or a missing `tradingview:screenshot`
row (worker.js line 114).  In the source both are `TypeError`s on `null`;
the spec calls them `ConfigurationMissing`. -/
inductive PQError where
  | configMissingBot
  | configMissingScreenshot
  deriving DecidableEq, Repr

/-- Observable events of one `processQueue` cycle, in program order.
`msgIdx` / the first `Nat` argument is the message loop counter `i`;
`updateMsg` records a `Message.update` call with the written `status`
(`none` when the update touches only `log`) and `log` payload. -/
inductive Event where
  | touch
  | pollQueue
  | screenshotAttempt (msgIdx : Nat) (symbol timeframe : String)
  | dispatchPhoto (msgIdx : Nat) (channel image caption : String)
  | dispatchText (msgIdx : Nat) (channel text : String)
  | updateMsg (msgIdx : Nat) (id : Nat) (status : Option String) (log : String)
  deriving DecidableEq, Repr

/-- Outcomes of the external effects, indexed by the loop counters `(i, j)` of
`processQueue`: `shot i j` is the result of the `screenshot(...)` call
(image URL, or thrown error serialized), `send i j` the result of the
`bot.sendPhoto` / `bot.sendMessage` call (response serialized, or thrown
error serialized). -/
structure Oracle where
  shot : Nat → Nat → Except String String
  send : Nat → Nat → Except String String

/-- The fixed fallback image substituted when a screenshot fails
(worker.js lines 122-123). -/
def placeholderImage : String :=
  "https://miro.medium.com/max/978/1*pUEZd8z__1p-7ICIO1NZFA.png"

/-- The `status` value the dispatch try/catch writes (worker.js lines 145-156):
`"success"` when the send resolves, `"failed"` when it throws. -/
def sendStatus : Except String String → String
  | .ok _ => "success"
  | .error _ => "failed"

/-- The `log` value the dispatch try/catch writes: the serialized response on
success, the serialized error on failure. -/
def sendLog : Except String String → String
  | .ok r => r
  | .error e => e

/-- The symbol-page URL built by `screenshot` (worker.js lines 33-39):
destructure `symbol.split(":")` into `[exchange, stock]`; when both are
truthy use the `?exchange=` form with the stock part, otherwise the bare
form with the whole symbol. -/
def screenshotUrl (symbol : String) : String :=
  let parts := jsSplit ':' symbol
  let exchange := parts.getD 0 ""
  let stock := parts.getD 1 ""
  if exchange ≠ "" ∧ stock ≠ "" then
    "https://www.tradingview.com/symbols/" ++ stock ++ "/?exchange=" ++ exchange
  else
    "https://www.tradingview.com/symbols/" ++ symbol ++ "/"

/-- The body of one channel iteration of `processQueue` (worker.js lines
110-163), as the event list it emits.  When screenshots are enabled: the
screenshot attempt, on failure a log-only `Message.update` plus the
placeholder substitution, a heartbeat touch, then the `sendPhoto` dispatch
(caption is the full `data`), the status/log `Message.update`, and a final
heartbeat touch.  When disabled: the `sendMessage` dispatch, the update,
and the touch. -/
def channelStep (ork : Oracle) (ss : Setting) (i j : Nat) (id : Nat)
    (data symbol : String) (tf : Option String) (chan : String) : List Event :=
  if ss.enabled then
    match ork.shot i j with
    | .ok url =>
        [.screenshotAttempt i symbol (jsOrElse tf ss.data), .touch,
         .dispatchPhoto i chan url data,
         .updateMsg i id (some (sendStatus (ork.send i j))) (sendLog (ork.send i j)),
         .touch]
    | .error e =>
        [.screenshotAttempt i symbol (jsOrElse tf ss.data),
         .updateMsg i id none e, .touch,
         .dispatchPhoto i chan placeholderImage data,
         .updateMsg i id (some (sendStatus (ork.send i j))) (sendLog (ork.send i j)),
         .touch]
  else
    [.dispatchText i chan data,
     .updateMsg i id (some (sendStatus (ork.send i j))) (sendLog (ork.send i j)),
     .touch]

/-- The channel loop of `processQueue` for one message.  Each iteration first
dereferences `screenshot_settings.enabled` (worker.js line 114), so a
missing `tradingview:screenshot` row aborts the cycle at the first channel
iteration, before any event of that iteration. -/
def runChannels (ork : Oracle) (ssRow : Option Setting) (i : Nat) (id : Nat)
    (data symbol : String) (tf : Option String) :
    List String → Nat → List Event × Option PQError
  | [], _ => ([], none)
  | chan :: rest, j =>
    match ssRow with
    | none => ([], some .configMissingScreenshot)
    | some ss =>
      let evs := channelStep ork ss i j id data symbol tf chan
      let r := runChannels ork ssRow i id data symbol tf rest (j + 1)
      (evs ++ r.1, r.2)

/-- The message loop of `processQueue` (worker.js lines 99-164), threading
the loop counter `i`. -/
def runMessages (ork : Oracle) (ssRow : Option Setting) :
    List QMessage → Nat → List Event × Option PQError
  | [], _ => ([], none)
  | m :: rest, i =>
    let r := runChannels ork ssRow i m.id m.data (symbolOf m.data) m.timeframe
      (channelsOf m.channels) 0
    match r.2 with
    | some e => (r.1, some e)
    | none =>
      let r2 := runMessages ork ssRow rest (i + 1)
      (r.1 ++ r2.1, r2.2)

/-- One invocation of `processQueue` (worker.js lines 80-165): heartbeat
touch, config loads, fetch of the pending messages, then
`new Telegram(bot_settings.data)` — which throws when the `telegram:bot`
row is missing — then the message loop.  Returns the emitted event trace
and the error that escaped the cycle, if any. -/
def processQueue (botRow ssRow : Option Setting) (pending : List QMessage)
    (ork : Oracle) : List Event × Option PQError :=
  match botRow with
  | none => ([.touch, .pollQueue], some .configMissingBot)
  | some _ =>
    let r := runMessages ork ssRow pending 0
    (.touch :: .pollQueue :: r.1, r.2)

/-- The inputs one iteration of the top-level `while (true)` loop of `init`
(worker.js lines 237-253) sees: the current config rows, pending queue and
external outcomes. -/
structure CycleInput where
  botRow : Option Setting
  ssRow : Option Setting
  pending : List QMessage
  ork : Oracle

/-- One iteration of the top-level loop: `try { processQueue } catch (err)
{ log }` — an error escaping the cycle is caught and recorded, never
re-thrown. -/
structure CycleResult where
  trace : List Event
  caughtError : Option PQError

/-- Run one guarded cycle of the top-level loop. -/
def runCycle (inp : CycleInput) : CycleResult :=
  let r := processQueue inp.botRow inp.ssRow inp.pending inp.ork
  { trace := r.1, caughtError := r.2 }

/-- The first `n` iterations of the top-level loop, each fed its own inputs:
every iteration runs regardless of errors in earlier ones. -/
def runCycles (inp : Nat → CycleInput) : Nat → List CycleResult
  | 0 => []
  | n + 1 => runCycles inp n ++ [runCycle (inp n)]

/-- Outcomes of the login section of `init` as it logs them: navigation
completed without the error dialog (`Login (SUCCESS)`), the inline error
indicator appeared (`Login (INVALID)`), or a step of the sequence threw and
was caught (`Login (FAILED)`). -/
inductive LoginOutcome where
  | success
  | invalid
  | failed
  deriving DecidableEq

/-- Modelled from the spec: `defaultRows` lives in `models.js`, which is not
under `src/`; per the spec the configuration rows other than the heartbeat
row are "assumed pre-seeded", so by the time `init` looks the
`tradingview:credentials` row up it is present. -/
def preseededCredRow (c : Setting) : Option Setting := some c

/-- The login section of `init` (worker.js lines 198-232).  The row lookup
result is dereferenced (`credentials_settings.enabled`) outside the
try/catch, so a missing row would throw; with the row present, the login
sequence runs only when `enabled` is true and every failure inside it is
caught and logged (`.ok (some …)`), never re-thrown.  The oracle is
`.error s` when a step of the sequence throws, `.ok failed` with `failed`
the result of the `.tv-dialog__error` probe otherwise. -/
def loginSection (credRow : Option Setting) (orl : Except String Bool) :
    Except String (Option LoginOutcome) :=
  match credRow with
  | none => .error "TypeError: Cannot read property of null"
  | some c =>
    if c.enabled then
      match orl with
      | .error _ => .ok (some .failed)
      | .ok true => .ok (some .invalid)
      | .ok false => .ok (some .success)
    else .ok none

/-- Whitespace in the ordinary sense: space, tab, newline, carriage return. -/
def isWsChar (c : Char) : Bool :=
  c = ' ' || c = '\t' || c = '\n' || c = '\r'

/-- Stated from the spec's words, for comparison with `symbolOf`: the first
whitespace-delimited token of `data` (leading whitespace skipped, token ends
at any whitespace character). -/
def specFirstWhitespaceToken (data : String) : String :=
  String.mk ((data.data.dropWhile isWsChar).takeWhile (fun c => ! isWsChar c))

/-- The message loop counter that emitted an event, when the event belongs to
a message iteration. -/
def Event.msgIdx? : Event → Option Nat
  | .screenshotAttempt k _ _ => some k
  | .dispatchPhoto k _ _ _ => some k
  | .dispatchText k _ _ => some k
  | .updateMsg k _ _ _ => some k
  | _ => none

/-- Is this event a dispatch attempt of message iteration `i`? -/
def Event.isDispatchOf (i : Nat) : Event → Bool
  | .dispatchPhoto k _ _ _ => k == i
  | .dispatchText k _ _ => k == i
  | _ => false

/-- Is this event a screenshot attempt of message iteration `i`? -/
def Event.isShotOf (i : Nat) : Event → Bool
  | .screenshotAttempt k _ _ => k == i
  | _ => false

/-- Is this event any dispatch attempt? -/
def Event.isDispatchAny : Event → Bool
  | .dispatchPhoto _ _ _ _ => true
  | .dispatchText _ _ _ => true
  | _ => false

/-- Is this event any screenshot attempt? -/
def Event.isShotAny : Event → Bool
  | .screenshotAttempt _ _ _ => true
  | _ => false

/-- Is this event any `Message.update`? -/
def Event.isUpdateAny : Event → Bool
  | .updateMsg _ _ _ _ => true
  | _ => false

/-- The status a `Message.update` of message iteration `i` writes, when the
event is such an update and it does write a status. -/
def Event.statusOf (i : Nat) : Event → Option String
  | .updateMsg k _ (some s) _ => if k == i then some s else none
  | _ => none

/-- The status field of message iteration `i`'s row at the end of a trace:
the last status-writing update wins (each update overwrites the previous
one). -/
def finalStatus (i : Nat) (tr : List Event) : Option String :=
  (tr.filterMap (Event.statusOf i)).getLast?

/-- The caption of a photo dispatch, when the event is one. -/
def photoCaption : Event → Option String
  | .dispatchPhoto _ _ _ cap => some cap
  | _ => none

/-- Heartbeat-relevant events: touches, screenshot attempts and dispatches. -/
def Event.isKey : Event → Bool
  | .touch => true
  | .screenshotAttempt _ _ _ => true
  | .dispatchPhoto _ _ _ _ => true
  | .dispatchText _ _ _ => true
  | _ => false

/-- Adjacency discipline on the key events of a trace: a screenshot attempt
is entered right after a heartbeat touch, and a dispatch is followed right
away by a heartbeat touch. -/
def hbR (a b : Event) : Prop :=
  (b.isShotAny = true → a = Event.touch) ∧ (a.isDispatchAny = true → b = Event.touch)

/-- A trace segment whose key events respect `hbR` and which ends on a
heartbeat touch. -/
def GoodSeg (l : List Event) : Prop :=
  List.Chain' hbR l ∧ l.getLast? = some Event.touch

/-- Sample bot-configuration row used by concrete witnesses. -/
def wBot : Setting := { data := "123456:ABCDEF", enabled := true }

/-- Sample screenshot-configuration row (screenshots enabled, default
timeframe `"1D"`) used by concrete witnesses. -/
def wShot : Setting := { data := "1D", enabled := true }

/-- Sample pending queue message used by concrete witnesses: the spec's own
scenario row. -/
def wMsg : QMessage :=
  { id := 7, data := "NASDAQ:AAPL Buy now", timeframe := none,
    channels := "chan1,chan2" }

/-- Oracle where every screenshot and every send succeeds. -/
def wOrkOk : Oracle :=
  { shot := fun _ _ => .ok "imgURL", send := fun _ _ => .ok "resp" }

/-- Oracle where every screenshot throws and every send succeeds. -/
def wOrkShotFail : Oracle :=
  { shot := fun _ _ => .error "navErr", send := fun _ _ => .ok "resp" }

/-- Oracle where every screenshot succeeds and every send throws. -/
def wOrkSendFail : Oracle :=
  { shot := fun _ _ => .ok "imgURL", send := fun _ _ => .error "sendErr" }

/-- Sample top-level cycle input used by concrete witnesses. -/
def wCycleInput : CycleInput :=
  { botRow := some wBot, ssRow := some wShot, pending := [wMsg], ork := wOrkOk }

theorem jsSplitList_ne_nil (c : Char) (l : List Char) : jsSplitList c l ≠ [] := by
  induction l with
  | nil => simp [jsSplitList]
  | cons x xs ih =>
    unfold jsSplitList
    split
    · simp
    · split <;> simp

theorem jsSplitList_not_mem (c : Char) (l : List Char) (h : c ∉ l) :
    jsSplitList c l = [l] := by
  induction l with
  | nil => rfl
  | cons x xs ih =>
    have hx : ¬ (x = c) := fun hx => h (by simp [hx])
    have hxs : c ∉ xs := fun hm => h (List.mem_cons_of_mem _ hm)
    simp [jsSplitList, ih hxs, hx]

theorem jsSplitList_sep (c : Char) (e t : List Char) (he : c ∉ e) :
    jsSplitList c (e ++ c :: t) = e :: jsSplitList c t := by
  induction e with
  | nil =>
    show jsSplitList c (c :: t) = [] :: jsSplitList c t
    rcases h : jsSplitList c t with _ | ⟨r, rs⟩
    · exact absurd h (jsSplitList_ne_nil c t)
    · conv_lhs => rw [jsSplitList]
      rw [h]
      simp
  | cons x e' ih =>
    have hx : ¬ (x = c) := fun hx => he (by simp [hx])
    have he' : c ∉ e' := fun hm => he (List.mem_cons_of_mem _ hm)
    simp only [List.cons_append]
    conv_lhs => rw [jsSplitList]
    rw [ih he']
    simp [hx]

theorem jsSplitList_headD (c : Char) (l : List Char) :
    (jsSplitList c l).headD [] = l.takeWhile (fun x => decide (x ≠ c)) := by
  induction l with
  | nil => rfl
  | cons x xs ih =>
    rcases h : jsSplitList c xs with _ | ⟨r, rs⟩
    · exact absurd h (jsSplitList_ne_nil c xs)
    · conv_lhs => rw [jsSplitList]
      rw [h] at ih
      rw [h]
      by_cases hx : x = c
      · simp [hx, List.takeWhile_cons]
      · simp only [List.takeWhile_cons, hx, decide_not, if_neg]
        simp only [List.headD_cons] at ih
        simp [hx, ih]

/-- C7 (amended): the symbol `processQueue` uses for screenshot acquisition is
`data.split(" ")[0]`, i.e. everything before the first space character
(U+0020) of `data` — not the first whitespace-delimited token: a tab does
not delimit, and leading spaces yield the empty symbol. -/
theorem symbolOf_eq_takeWhile_not_space (data : String) :
    symbolOf data = String.mk (data.data.takeWhile (fun ch => decide (ch ≠ ' '))) := by
  unfold symbolOf jsSplit
  rw [← jsSplitList_headD]
  rcases h : jsSplitList ' ' data.data with _ | ⟨r, rs⟩
  · exact absurd h (jsSplitList_ne_nil _ _)
  · simp

/-- C7 counterexample: for `data = "AAPL\tBuy now"` the first
whitespace-delimited token is `"AAPL"` (the tab is whitespace), but the
symbol the worker uses is `"AAPL\tBuy"` — the code splits on the literal
space character only. -/
theorem symbolOf_counterexample :
    symbolOf "AAPL\tBuy now" = "AAPL\tBuy"
    ∧ specFirstWhitespaceToken "AAPL\tBuy now" = "AAPL"
    ∧ symbolOf "AAPL\tBuy now" ≠ specFirstWhitespaceToken "AAPL\tBuy now" := by
  refine ⟨by decide, by decide, by decide⟩

/-- C6: for every symbol of the form `EXCHANGE:TICKER` (both parts non-empty
and colon-free), `screenshot` builds the page URL from the ticker part with
an explicit `?exchange=` query parameter; for every symbol containing no
colon, it builds the bare-symbol URL form. -/
theorem screenshotUrl_forms (e t s : String)
    (he : e ≠ "") (ht : t ≠ "") (hec : ':' ∉ e.data) (htc : ':' ∉ t.data)
    (hsc : ':' ∉ s.data) :
    screenshotUrl (e ++ ":" ++ t)
      = "https://www.tradingview.com/symbols/" ++ t ++ "/?exchange=" ++ e
    ∧ screenshotUrl s = "https://www.tradingview.com/symbols/" ++ s ++ "/" := by
  constructor
  · have hdata : (e ++ ":" ++ t).data = e.data ++ ':' :: t.data := by
      simp [String.data_append]
    simp only [screenshotUrl, jsSplit, hdata,
      jsSplitList_sep _ _ _ hec, jsSplitList_not_mem _ _ htc]
    simp only [List.map_cons, List.map_nil, List.getD_cons_zero, List.getD_cons_succ]
    rw [if_pos ⟨he, ht⟩]
  · simp only [screenshotUrl, jsSplit, jsSplitList_not_mem _ _ hsc]
    simp only [List.map_cons, List.map_nil, List.getD_cons_zero]
    rw [if_neg]
    rintro ⟨-, hbad⟩
    exact hbad (by rfl)

/-- Witness for C6 at `e = "NASDAQ"`, `t = "AAPL"`, `s = "AAPL"`. -/
theorem screenshotUrl_forms_witness :
    screenshotUrl ("NASDAQ" ++ ":" ++ "AAPL")
      = "https://www.tradingview.com/symbols/" ++ "AAPL" ++ "/?exchange=" ++ "NASDAQ"
    ∧ screenshotUrl "AAPL" = "https://www.tradingview.com/symbols/" ++ "AAPL" ++ "/" :=
  screenshotUrl_forms "NASDAQ" "AAPL" "AAPL" (by decide) (by decide) (by decide)
    (by decide) (by decide)

theorem channelsOf_ne_nil (s : String) : channelsOf s ≠ [] := by
  unfold channelsOf jsSplit
  intro h
  rcases hh : jsSplitList ',' s.data with _ | ⟨r, rs⟩
  · exact jsSplitList_ne_nil ',' s.data hh
  · rw [hh] at h; simp at h

theorem channelStep_msgIdx (ork : Oracle) (ss : Setting) (i j id : Nat)
    (d sym ch : String) (tf : Option String) :
    ∀ e ∈ channelStep ork ss i j id d sym tf ch, ∀ k, e.msgIdx? = some k → k = i := by
  intro e he k hk
  unfold channelStep at he
  split at he
  · split at he
    · simp only [List.mem_cons, List.not_mem_nil, or_false] at he
      rcases he with rfl | rfl | rfl | rfl | rfl <;> simp [Event.msgIdx?] at hk <;> omega
    · simp only [List.mem_cons, List.not_mem_nil, or_false] at he
      rcases he with rfl | rfl | rfl | rfl | rfl | rfl <;>
        simp [Event.msgIdx?] at hk <;> omega
  · simp only [List.mem_cons, List.not_mem_nil, or_false] at he
    rcases he with rfl | rfl | rfl <;> simp [Event.msgIdx?] at hk <;> omega

theorem channelStep_countP_dispatchOf (ork : Oracle) (ss : Setting) (i j id : Nat)
    (d sym ch : String) (tf : Option String) :
    (channelStep ork ss i j id d sym tf ch).countP (Event.isDispatchOf i) = 1 := by
  unfold channelStep
  split
  · split <;>
      simp [List.countP_cons, List.countP_nil, Event.isDispatchOf]
  · simp [List.countP_cons, List.countP_nil, Event.isDispatchOf]

theorem channelStep_countP_shotOf (ork : Oracle) (ss : Setting) (i j id : Nat)
    (d sym ch : String) (tf : Option String) :
    (channelStep ork ss i j id d sym tf ch).countP (Event.isShotOf i)
      = if ss.enabled then 1 else 0 := by
  unfold channelStep
  split
  · next hen =>
    split <;> simp [hen, List.countP_cons, List.countP_nil, Event.isShotOf]
  · next hen =>
    simp [hen, List.countP_cons, List.countP_nil, Event.isShotOf]

theorem channelStep_countP_dispatchAny (ork : Oracle) (ss : Setting) (i j id : Nat)
    (d sym ch : String) (tf : Option String) :
    (channelStep ork ss i j id d sym tf ch).countP Event.isDispatchAny = 1 := by
  unfold channelStep
  split
  · split <;>
      simp [List.countP_cons, List.countP_nil, Event.isDispatchAny]
  · simp [List.countP_cons, List.countP_nil, Event.isDispatchAny]

theorem channelStep_filterMap_statusOf (ork : Oracle) (ss : Setting) (i j id : Nat)
    (d sym ch : String) (tf : Option String) :
    (channelStep ork ss i j id d sym tf ch).filterMap (Event.statusOf i)
      = [sendStatus (ork.send i j)] := by
  unfold channelStep
  split
  · split <;> simp [List.filterMap_cons, Event.statusOf]
  · simp [List.filterMap_cons, Event.statusOf]

theorem isDispatchOf_msgIdx (i : Nat) (e : Event) (h : e.isDispatchOf i = true) :
    e.msgIdx? = some i := by
  cases e <;> simp [Event.isDispatchOf] at h <;> simp [Event.msgIdx?, h]

theorem isShotOf_msgIdx (i : Nat) (e : Event) (h : e.isShotOf i = true) :
    e.msgIdx? = some i := by
  cases e <;> simp [Event.isShotOf] at h <;> simp [Event.msgIdx?, h]

theorem statusOf_msgIdx (i : Nat) (e : Event) (s : String)
    (h : Event.statusOf i e = some s) : e.msgIdx? = some i := by
  cases e with
  | touch => simp [Event.statusOf] at h
  | pollQueue => simp [Event.statusOf] at h
  | screenshotAttempt k a b => simp [Event.statusOf] at h
  | dispatchPhoto k a b c => simp [Event.statusOf] at h
  | dispatchText k a b => simp [Event.statusOf] at h
  | updateMsg k id st lg =>
    cases st with
    | none => simp [Event.statusOf] at h
    | some s2 =>
      by_cases hk : k = i
      · simp [Event.msgIdx?, hk]
      · simp [Event.statusOf, hk] at h

theorem trace_foreign_vanish (tr : List Event) (i : Nat)
    (h : ∀ e ∈ tr, ∀ k, e.msgIdx? = some k → ¬ k = i) :
    tr.countP (Event.isDispatchOf i) = 0
    ∧ tr.countP (Event.isShotOf i) = 0
    ∧ tr.filterMap (Event.statusOf i) = [] := by
  refine ⟨List.countP_eq_zero.2 ?_, List.countP_eq_zero.2 ?_,
    List.filterMap_eq_nil_iff.2 ?_⟩
  · intro e he hd
    exact h e he i (isDispatchOf_msgIdx i e hd) rfl
  · intro e he hd
    exact h e he i (isShotOf_msgIdx i e hd) rfl
  · intro e he
    rcases hs : Event.statusOf i e with _ | s
    · rfl
    · exact absurd rfl (h e he i (statusOf_msgIdx i e s hs))

theorem runChannels_cons_some (ork : Oracle) (ss : Setting) (i id : Nat)
    (d sym ch : String) (tf : Option String) (rest : List String) (j : Nat) :
    runChannels ork (some ss) i id d sym tf (ch :: rest) j
      = (channelStep ork ss i j id d sym tf ch
          ++ (runChannels ork (some ss) i id d sym tf rest (j + 1)).1,
         (runChannels ork (some ss) i id d sym tf rest (j + 1)).2) := rfl

theorem runChannels_err_none (ork : Oracle) (ss : Setting) (i id : Nat)
    (d sym : String) (tf : Option String) :
    ∀ (chans : List String) (j : Nat),
    (runChannels ork (some ss) i id d sym tf chans j).2 = none := by
  intro chans
  induction chans with
  | nil => intro j; rfl
  | cons ch rest ih =>
    intro j
    rw [runChannels_cons_some]
    exact ih (j + 1)

theorem runChannels_all_msgIdx (ork : Oracle) (ss : Setting) (i id : Nat)
    (d sym : String) (tf : Option String) :
    ∀ (chans : List String) (j : Nat),
    ∀ e ∈ (runChannels ork (some ss) i id d sym tf chans j).1,
      ∀ k, e.msgIdx? = some k → k = i := by
  intro chans
  induction chans with
  | nil => intro j e he; simp [runChannels] at he
  | cons ch rest ih =>
    intro j e he
    rw [runChannels_cons_some] at he
    simp only [List.mem_append] at he
    rcases he with he | he
    · exact channelStep_msgIdx ork ss i j id d sym ch tf e he
    · exact ih (j + 1) e he

theorem runChannels_countP_dispatchOf (ork : Oracle) (ss : Setting) (i id : Nat)
    (d sym : String) (tf : Option String) :
    ∀ (chans : List String) (j : Nat),
    (runChannels ork (some ss) i id d sym tf chans j).1.countP (Event.isDispatchOf i)
      = chans.length := by
  intro chans
  induction chans with
  | nil => intro j; rfl
  | cons ch rest ih =>
    intro j
    rw [runChannels_cons_some]
    simp only [List.countP_append, channelStep_countP_dispatchOf, ih (j + 1),
      List.length_cons]
    omega

theorem runChannels_countP_shotOf (ork : Oracle) (ss : Setting) (i id : Nat)
    (d sym : String) (tf : Option String) :
    ∀ (chans : List String) (j : Nat),
    (runChannels ork (some ss) i id d sym tf chans j).1.countP (Event.isShotOf i)
      = if ss.enabled then chans.length else 0 := by
  intro chans
  induction chans with
  | nil => intro j; by_cases hen : ss.enabled <;> simp [hen, runChannels]
  | cons ch rest ih =>
    intro j
    rw [runChannels_cons_some]
    simp only [List.countP_append, channelStep_countP_shotOf, ih (j + 1),
      List.length_cons]
    by_cases hen : ss.enabled <;> simp [hen] <;> omega

theorem runChannels_countP_dispatchAny (ork : Oracle) (ss : Setting) (i id : Nat)
    (d sym : String) (tf : Option String) :
    ∀ (chans : List String) (j : Nat),
    (runChannels ork (some ss) i id d sym tf chans j).1.countP Event.isDispatchAny
      = chans.length := by
  intro chans
  induction chans with
  | nil => intro j; rfl
  | cons ch rest ih =>
    intro j
    rw [runChannels_cons_some]
    simp only [List.countP_append, channelStep_countP_dispatchAny, ih (j + 1),
      List.length_cons]
    omega

theorem runChannels_filterMap_statusOf (ork : Oracle) (ss : Setting) (i id : Nat)
    (d sym : String) (tf : Option String) :
    ∀ (chans : List String) (j : Nat),
    (runChannels ork (some ss) i id d sym tf chans j).1.filterMap (Event.statusOf i)
      = (List.range chans.length).map (fun k => sendStatus (ork.send i (j + k))) := by
  intro chans
  induction chans with
  | nil => intro j; rfl
  | cons ch rest ih =>
    intro j
    rw [runChannels_cons_some]
    simp only [List.filterMap_append, channelStep_filterMap_statusOf, ih (j + 1),
      List.length_cons]
    rw [List.range_succ_eq_map, List.map_cons, List.map_map]
    simp only [Nat.add_zero, List.singleton_append]
    have hfun : ((fun k => sendStatus (ork.send i (j + k))) ∘ Nat.succ)
        = fun k => sendStatus (ork.send i (j + 1 + k)) := by
      funext k
      simp only [Function.comp_apply]
      have hjk : j + Nat.succ k = j + 1 + k := by omega
      rw [hjk]
    rw [hfun]

theorem range_map_getLast (f : Nat → String) (n : Nat) (hn : n ≠ 0) :
    ((List.range n).map f).getLast? = some (f (n - 1)) := by
  rcases n with _ | m
  · exact absurd rfl hn
  · rw [List.range_succ, List.map_append]
    simp [List.getLast?_concat]

theorem countP_cons_false {p : Event → Bool} {a : Event} {l : List Event}
    (h : p a = false) : (a :: l).countP p = l.countP p := by
  simp [List.countP_cons, h]

theorem filterMap_cons_none {f : Event → Option String} {a : Event} {l : List Event}
    (h : f a = none) : (a :: l).filterMap f = l.filterMap f := by
  simp [List.filterMap_cons, h]

theorem runMessages_cons_some (ork : Oracle) (ss : Setting) (m : QMessage)
    (rest : List QMessage) (s : Nat) :
    runMessages ork (some ss) (m :: rest) s
      = ((runChannels ork (some ss) s m.id m.data (symbolOf m.data) m.timeframe
            (channelsOf m.channels) 0).1
          ++ (runMessages ork (some ss) rest (s + 1)).1,
         (runMessages ork (some ss) rest (s + 1)).2) := by
  simp only [runMessages]
  rw [runChannels_err_none]

theorem runMessages_err_none (ork : Oracle) (ss : Setting) :
    ∀ (msgs : List QMessage) (s : Nat), (runMessages ork (some ss) msgs s).2 = none := by
  intro msgs
  induction msgs with
  | nil => intro s; rfl
  | cons m rest ih =>
    intro s
    rw [runMessages_cons_some]
    exact ih (s + 1)

theorem runMessages_all_msgIdx_ge (ork : Oracle) (ss : Setting) :
    ∀ (msgs : List QMessage) (s : Nat),
    ∀ e ∈ (runMessages ork (some ss) msgs s).1, ∀ k, e.msgIdx? = some k → s ≤ k := by
  intro msgs
  induction msgs with
  | nil => intro s e he; simp [runMessages] at he
  | cons m rest ih =>
    intro s e he k hk
    rw [runMessages_cons_some] at he
    rcases List.mem_append.1 he with hm | hm
    · have := runChannels_all_msgIdx ork ss s m.id m.data (symbolOf m.data) m.timeframe
        (channelsOf m.channels) 0 e hm k hk
      omega
    · have := ih (s + 1) e hm k hk
      omega

theorem runMessages_countP_dispatchAny (ork : Oracle) (ss : Setting) :
    ∀ (msgs : List QMessage) (s : Nat),
    (runMessages ork (some ss) msgs s).1.countP Event.isDispatchAny
      = (msgs.map (fun mm => (channelsOf mm.channels).length)).sum := by
  intro msgs
  induction msgs with
  | nil => intro s; rfl
  | cons m rest ih =>
    intro s
    rw [runMessages_cons_some, List.countP_append, runChannels_countP_dispatchAny,
      ih (s + 1)]
    simp [List.map_cons, List.sum_cons]

theorem runMessages_stats (ork : Oracle) (ss : Setting) :
    ∀ (msgs : List QMessage) (s p : Nat) (m : QMessage), msgs[p]? = some m →
    ((runMessages ork (some ss) msgs s).1.countP (Event.isDispatchOf (s + p))
        = (channelsOf m.channels).length)
    ∧ ((runMessages ork (some ss) msgs s).1.countP (Event.isShotOf (s + p))
        = if ss.enabled then (channelsOf m.channels).length else 0)
    ∧ ((runMessages ork (some ss) msgs s).1.filterMap (Event.statusOf (s + p))
        = (List.range (channelsOf m.channels).length).map
            (fun k => sendStatus (ork.send (s + p) k))) := by
  intro msgs
  induction msgs with
  | nil => intro s p m hm; simp at hm
  | cons m0 rest ih =>
    intro s p m hm
    rw [runMessages_cons_some]
    rcases p with _ | q
    · rw [List.getElem?_cons_zero] at hm
      injection hm with hm0
      subst hm0
      simp only [Nat.add_zero]
      have hfor : ∀ e ∈ (runMessages ork (some ss) rest (s + 1)).1, ∀ k,
          e.msgIdx? = some k → ¬ k = s := by
        intro e he k hk
        have := runMessages_all_msgIdx_ge ork ss rest (s + 1) e he k hk
        omega
      obtain ⟨h1, h2, h3⟩ := trace_foreign_vanish _ _ hfor
      refine ⟨?_, ?_, ?_⟩
      · rw [List.countP_append, h1, runChannels_countP_dispatchOf, Nat.add_zero]
      · rw [List.countP_append, h2, runChannels_countP_shotOf, Nat.add_zero]
      · rw [List.filterMap_append, h3, List.append_nil, runChannels_filterMap_statusOf]
        simp only [Nat.zero_add]
    · rw [List.getElem?_cons_succ] at hm
      obtain ⟨k1, k2, k3⟩ := ih (s + 1) q m hm
      have hidx : s + (q + 1) = s + 1 + q := by omega
      rw [hidx]
      have hfor : ∀ e ∈ (runChannels ork (some ss) s m0.id m0.data (symbolOf m0.data)
          m0.timeframe (channelsOf m0.channels) 0).1, ∀ k,
          e.msgIdx? = some k → ¬ k = s + 1 + q := by
        intro e he k hk
        have := runChannels_all_msgIdx ork ss s m0.id m0.data (symbolOf m0.data)
          m0.timeframe (channelsOf m0.channels) 0 e he k hk
        omega
      obtain ⟨h1, h2, h3⟩ := trace_foreign_vanish _ _ hfor
      refine ⟨?_, ?_, ?_⟩
      · rw [List.countP_append, h1, k1, Nat.zero_add]
      · rw [List.countP_append, h2, k2, Nat.zero_add]
      · rw [List.filterMap_append, h3, k3, List.nil_append]

/-- C1: for every queue message fetched as pending (position `i`, content `m`)
with `N = (channelsOf m.channels).length` channels, one `processQueue`
invocation with both configuration rows present performs exactly `N` dispatch
attempts for it, at most `N` screenshot attempts (and `0` when screenshots
are disabled), and the final status written to the row is the outcome of the
`N`-th (last) channel's dispatch, overwriting the statuses written for
earlier channels. -/
theorem processQueue_last_channel_wins (b ss : Setting) (pending : List QMessage)
    (ork : Oracle) (i : Nat) (m : QMessage) (h : pending[i]? = some m) :
    ((processQueue (some b) (some ss) pending ork).1.countP (Event.isDispatchOf i)
        = (channelsOf m.channels).length)
    ∧ ((processQueue (some b) (some ss) pending ork).1.countP (Event.isShotOf i)
        ≤ (channelsOf m.channels).length)
    ∧ (ss.enabled = false →
        (processQueue (some b) (some ss) pending ork).1.countP (Event.isShotOf i) = 0)
    ∧ finalStatus i (processQueue (some b) (some ss) pending ork).1
        = some (sendStatus (ork.send i ((channelsOf m.channels).length - 1))) := by
  obtain ⟨k1, k2, k3⟩ := runMessages_stats ork ss pending 0 i m h
  simp only [Nat.zero_add] at k1 k2 k3
  have htr : (processQueue (some b) (some ss) pending ork).1
      = Event.touch :: Event.pollQueue :: (runMessages ork (some ss) pending 0).1 := rfl
  have hN : (channelsOf m.channels).length ≠ 0 := by
    intro h0
    exact channelsOf_ne_nil m.channels (List.eq_nil_of_length_eq_zero h0)
  refine ⟨?_, ?_, ?_, ?_⟩
  · rw [htr, countP_cons_false rfl, countP_cons_false rfl, k1]
  · rw [htr, countP_cons_false rfl, countP_cons_false rfl, k2]
    split <;> omega
  · intro hen
    rw [htr, countP_cons_false rfl, countP_cons_false rfl, k2, if_neg]
    simp [hen]
  · unfold finalStatus
    rw [htr, filterMap_cons_none rfl, filterMap_cons_none rfl, k3]
    exact range_map_getLast _ _ hN

/-- Witness for C1: the spec's scenario message with two channels, all
external effects succeeding. -/
theorem processQueue_last_channel_wins_witness :
    ((processQueue (some wBot) (some wShot) [wMsg] wOrkOk).1.countP (Event.isDispatchOf 0)
        = (channelsOf wMsg.channels).length)
    ∧ ((processQueue (some wBot) (some wShot) [wMsg] wOrkOk).1.countP (Event.isShotOf 0)
        ≤ (channelsOf wMsg.channels).length)
    ∧ (wShot.enabled = false →
        (processQueue (some wBot) (some wShot) [wMsg] wOrkOk).1.countP
          (Event.isShotOf 0) = 0)
    ∧ finalStatus 0 (processQueue (some wBot) (some wShot) [wMsg] wOrkOk).1
        = some (sendStatus (wOrkOk.send 0 ((channelsOf wMsg.channels).length - 1))) :=
  processQueue_last_channel_wins wBot wShot [wMsg] wOrkOk 0 wMsg rfl

theorem channelStep_photoCaption (ork : Oracle) (ss : Setting) (i j id : Nat)
    (d sym ch : String) (tf : Option String) :
    ∀ e ∈ channelStep ork ss i j id d sym tf ch, ∀ c2, photoCaption e = some c2 →
      c2 = d := by
  intro e he c2 hc
  unfold channelStep at he
  split at he
  · split at he
    · simp only [List.mem_cons, List.not_mem_nil, or_false] at he
      rcases he with rfl | rfl | rfl | rfl | rfl <;> simp_all [photoCaption]
    · simp only [List.mem_cons, List.not_mem_nil, or_false] at he
      rcases he with rfl | rfl | rfl | rfl | rfl | rfl <;> simp_all [photoCaption]
  · simp only [List.mem_cons, List.not_mem_nil, or_false] at he
    rcases he with rfl | rfl | rfl <;> simp_all [photoCaption]

theorem runChannels_photoCaption (ork : Oracle) (ss : Setting) (i id : Nat)
    (d sym : String) (tf : Option String) :
    ∀ (chans : List String) (j : Nat),
    ∀ e ∈ (runChannels ork (some ss) i id d sym tf chans j).1,
      ∀ c2, photoCaption e = some c2 → c2 = d := by
  intro chans
  induction chans with
  | nil => intro j e he; simp [runChannels] at he
  | cons ch rest ih =>
    intro j e he c2 hc
    rw [runChannels_cons_some] at he
    rcases List.mem_append.1 he with hm | hm
    · exact channelStep_photoCaption ork ss i j id d sym ch tf e hm c2 hc
    · exact ih (j + 1) e hm c2 hc

theorem runMessages_photo_caption (ork : Oracle) (ss : Setting) :
    ∀ (msgs : List QMessage) (s k : Nat) (ch img cap : String),
    Event.dispatchPhoto k ch img cap ∈ (runMessages ork (some ss) msgs s).1 →
    ∃ p m, msgs[p]? = some m ∧ k = s + p ∧ cap = m.data := by
  intro msgs
  induction msgs with
  | nil => intro s k ch img cap hm; simp [runMessages] at hm
  | cons m0 rest ih =>
    intro s k ch img cap hmem
    rw [runMessages_cons_some] at hmem
    rcases List.mem_append.1 hmem with hm | hm
    · have hk : k = s := runChannels_all_msgIdx ork ss s m0.id m0.data (symbolOf m0.data)
        m0.timeframe (channelsOf m0.channels) 0 _ hm k rfl
      have hcap : cap = m0.data := runChannels_photoCaption ork ss s m0.id m0.data
        (symbolOf m0.data) m0.timeframe (channelsOf m0.channels) 0 _ hm cap rfl
      exact ⟨0, m0, by simp, by omega, hcap⟩
    · obtain ⟨p, m, hp, hk, hcap⟩ := ih (s + 1) k ch img cap hm
      exact ⟨p + 1, m, by simpa using hp, by omega, hcap⟩

/-- C3 (amended): every photo dispatch of a cycle is captioned with the FULL
`data` field of its message — `bot.sendPhoto(channel, image, {caption: data})`
— not with the remainder of `data` after its first token. -/
theorem photo_caption_is_full_data (b ss : Setting) (pending : List QMessage)
    (ork : Oracle) (k : Nat) (ch img cap : String)
    (h : Event.dispatchPhoto k ch img cap
      ∈ (processQueue (some b) (some ss) pending ork).1) :
    ∃ m, pending[k]? = some m ∧ cap = m.data := by
  have htr : (processQueue (some b) (some ss) pending ork).1
      = Event.touch :: Event.pollQueue :: (runMessages ork (some ss) pending 0).1 := rfl
  rw [htr] at h
  simp only [List.mem_cons] at h
  rcases h with h | h | h
  · exact absurd h (by simp)
  · exact absurd h (by simp)
  · obtain ⟨p, m, hp, hk, hcap⟩ := runMessages_photo_caption ork ss pending 0 k ch img
      cap h
    refine ⟨m, ?_, hcap⟩
    rw [hk, Nat.zero_add]
    exact hp

/-- Witness for C3: in the spec's scenario run, the first channel's photo
dispatch is captioned with the full data field. -/
theorem photo_caption_is_full_data_witness :
    ∃ m, [wMsg][0]? = some m ∧ "NASDAQ:AAPL Buy now" = m.data :=
  photo_caption_is_full_data wBot wShot [wMsg] wOrkOk 0 "chan1" "imgURL"
    "NASDAQ:AAPL Buy now" (by decide)

/-- C3 counterexample: for the spec's own scenario (data
`"NASDAQ:AAPL Buy now"`, screenshots enabled, channels `"chan1,chan2"`),
both sends carry the caption `"NASDAQ:AAPL Buy now"`, not `"Buy now"`. -/
theorem photo_caption_counterexample :
    ((processQueue (some wBot) (some wShot) [wMsg] wOrkOk).1.filterMap photoCaption)
      = ["NASDAQ:AAPL Buy now", "NASDAQ:AAPL Buy now"]
    ∧ ("NASDAQ:AAPL Buy now" : String) ≠ "Buy now" := by
  refine ⟨by decide, by decide⟩

/-- C4: when the screenshot for a channel fails, the error stays inside the
per-channel boundary: the serialized error is written to the row's `log`
with the status left untouched (`none`), the fixed placeholder image URL is
substituted, the dispatch to the channel is still attempted with the
placeholder, and the channel body runs to its end. -/
theorem screenshot_failure_contained (ork : Oracle) (ss : Setting) (i j id : Nat)
    (d sym ch : String) (tf : Option String) (e : String)
    (hen : ss.enabled = true) (hf : ork.shot i j = .error e) :
    channelStep ork ss i j id d sym tf ch
      = [.screenshotAttempt i sym (jsOrElse tf ss.data),
         .updateMsg i id none e, .touch,
         .dispatchPhoto i ch placeholderImage d,
         .updateMsg i id (some (sendStatus (ork.send i j))) (sendLog (ork.send i j)),
         .touch] := by
  unfold channelStep
  rw [if_pos hen, hf]

/-- Witness for C4: screenshot failing on the spec's scenario message. -/
theorem screenshot_failure_contained_witness :
    channelStep wOrkShotFail wShot 0 0 7 "NASDAQ:AAPL Buy now" "NASDAQ:AAPL" none "chan1"
      = [.screenshotAttempt 0 "NASDAQ:AAPL" (jsOrElse none wShot.data),
         .updateMsg 0 7 none "navErr", .touch,
         .dispatchPhoto 0 "chan1" placeholderImage "NASDAQ:AAPL Buy now",
         .updateMsg 0 7 (some (sendStatus (wOrkShotFail.send 0 0)))
           (sendLog (wOrkShotFail.send 0 0)),
         .touch] :=
  screenshot_failure_contained wOrkShotFail wShot 0 0 7 "NASDAQ:AAPL Buy now"
    "NASDAQ:AAPL" "chan1" none "navErr" rfl rfl

/-- C5: when a dispatch fails, the error stays inside the per-channel
boundary: the row is updated with status `failed` and the serialized error
as `log` (followed by the heartbeat touch that ends the channel body), and
the cycle still performs one dispatch attempt for every channel of every
pending message, whatever the oracle's failures. -/
theorem dispatch_failure_contained (b ss : Setting) (pending : List QMessage)
    (ork : Oracle) (i j id : Nat) (d sym ch : String) (tf : Option String) (e : String)
    (hf : ork.send i j = .error e) :
    (∃ pre dEv, channelStep ork ss i j id d sym tf ch
        = pre ++ [dEv, .updateMsg i id (some "failed") e, .touch]
        ∧ dEv.isDispatchAny = true)
    ∧ ((processQueue (some b) (some ss) pending ork).1.countP Event.isDispatchAny
        = (pending.map (fun mm => (channelsOf mm.channels).length)).sum) := by
  constructor
  · have hs : sendStatus (ork.send i j) = "failed" := by rw [hf]; rfl
    have hl : sendLog (ork.send i j) = e := by rw [hf]; rfl
    unfold channelStep
    rw [hs, hl]
    split
    · split
      · next url hu =>
        exact ⟨[.screenshotAttempt i sym (jsOrElse tf ss.data), .touch],
          .dispatchPhoto i ch url d, rfl, rfl⟩
      · next e2 he2 =>
        exact ⟨[.screenshotAttempt i sym (jsOrElse tf ss.data),
            .updateMsg i id none e2, .touch],
          .dispatchPhoto i ch placeholderImage d, rfl, rfl⟩
    · exact ⟨[], .dispatchText i ch d, rfl, rfl⟩
  · have htr : (processQueue (some b) (some ss) pending ork).1
        = Event.touch :: Event.pollQueue :: (runMessages ork (some ss) pending 0).1 := rfl
    rw [htr, countP_cons_false rfl, countP_cons_false rfl]
    exact runMessages_countP_dispatchAny ork ss pending 0

/-- Witness for C5: the send to the first channel throwing on the spec's
scenario message. -/
theorem dispatch_failure_contained_witness :
    (∃ pre dEv, channelStep wOrkSendFail wShot 0 0 7 "NASDAQ:AAPL Buy now" "NASDAQ:AAPL"
        none "chan1"
        = pre ++ [dEv, .updateMsg 0 7 (some "failed") "sendErr", .touch]
        ∧ dEv.isDispatchAny = true)
    ∧ ((processQueue (some wBot) (some wShot) [wMsg] wOrkSendFail).1.countP
          Event.isDispatchAny
        = ([wMsg].map (fun mm => (channelsOf mm.channels).length)).sum) :=
  dispatch_failure_contained wBot wShot [wMsg] wOrkSendFail 0 0 7 "NASDAQ:AAPL Buy now"
    "NASDAQ:AAPL" "chan1" none "sendErr" rfl

theorem runMessages_none_events (ork : Oracle) :
    ∀ (msgs : List QMessage) (s : Nat), (runMessages ork none msgs s).1 = [] := by
  intro msgs
  rcases msgs with _ | ⟨m, rest⟩
  · intro s; rfl
  · intro s
    rcases hc : channelsOf m.channels with _ | ⟨c, cs⟩
    · exact absurd hc (channelsOf_ne_nil m.channels)
    · simp only [runMessages, hc]
      rfl

/-- C10: whenever `processQueue` aborts on a missing configuration row, the
whole trace of the cycle is just the initial heartbeat touch and the queue
poll — in particular no `Message.update` has run, so no queue row's status
or log field is modified, while the worker heartbeat has already been
updated. -/
theorem abort_leaves_queue_untouched (br sr : Option Setting)
    (pending : List QMessage) (ork : Oracle) (err : PQError)
    (h : (processQueue br sr pending ork).2 = some err) :
    (processQueue br sr pending ork).1 = [Event.touch, Event.pollQueue] := by
  rcases br with _ | b
  · rfl
  · rcases sr with _ | ss
    · have htr : (processQueue (some b) none pending ork).1
          = Event.touch :: Event.pollQueue :: (runMessages ork none pending 0).1 := rfl
      rw [htr, runMessages_none_events]
    · have hn : (processQueue (some b) (some ss) pending ork).2 = none := by
        show (runMessages ork (some ss) pending 0).2 = none
        exact runMessages_err_none ork ss pending 0
      rw [hn] at h
      cases h

/-- Witness for C10: the `telegram:bot` row absent. -/
theorem abort_leaves_queue_untouched_witness :
    (processQueue none (some wShot) [wMsg] wOrkOk).1 = [Event.touch, Event.pollQueue] :=
  abort_leaves_queue_untouched none (some wShot) [wMsg] wOrkOk
    PQError.configMissingBot rfl

/-- C2 (amended): a missing `telegram:bot` row always aborts the cycle with
the configuration error; a missing `tradingview:screenshot` row aborts it at
the first channel of the first pending message, hence exactly when at least
one pending message exists (with an empty queue that cycle completes without
raising); the top-level loop catches the error per iteration, so every later
iteration still runs and the worker never terminates. -/
theorem config_missing_aborts_cycle (sr : Option Setting) (pend pend2 : List QMessage)
    (ork ork2 : Oracle) (b : Setting) (inp : Nat → CycleInput) (n : Nat)
    (h2 : pend2 ≠ []) :
    (processQueue none sr pend ork).2 = some PQError.configMissingBot
    ∧ (processQueue (some b) none pend2 ork2).2 = some PQError.configMissingScreenshot
    ∧ (runCycles inp n).length = n := by
  refine ⟨rfl, ?_, ?_⟩
  · rcases pend2 with _ | ⟨m, rest⟩
    · exact absurd rfl h2
    · show (runMessages ork2 none (m :: rest) 0).2 = some .configMissingScreenshot
      rcases hc : channelsOf m.channels with _ | ⟨c, cs⟩
      · exact absurd hc (channelsOf_ne_nil m.channels)
      · simp only [runMessages, hc]
        rfl
  · induction n with
    | zero => rfl
    | succ k ih => simp [runCycles, ih]

/-- Witness for C2 at a one-message queue and three loop iterations. -/
theorem config_missing_aborts_cycle_witness :
    (processQueue none (some wShot) [wMsg] wOrkOk).2 = some PQError.configMissingBot
    ∧ (processQueue (some wBot) none [wMsg] wOrkOk).2
        = some PQError.configMissingScreenshot
    ∧ (runCycles (fun _ => wCycleInput) 3).length = 3 :=
  config_missing_aborts_cycle (some wShot) [wMsg] [wMsg] wOrkOk wOrkOk wBot
    (fun _ => wCycleInput) 3 (by decide)

/-- C2 counterexample: with the `tradingview:screenshot` row absent but the
queue empty, `processQueue` completes without raising any error, so the
claim's unconditional "raises" is false. -/
theorem config_missing_counterexample :
    (processQueue (some wBot) none [] wOrkOk).2 = none := rfl

/-- C9: with the credentials row present (pre-seeded, per the spec, by the
bootstrap outside `src/`), the login section of `init` never lets a failure
escape its boundary — it always returns `.ok`, login-sequence exceptions
included, which are reported as the non-fatal `failed` outcome — and the
authentication sequence is attempted exactly when the row's `enabled` flag
is true (a disabled row skips it entirely: `.ok none`). -/
theorem authenticator_never_aborts (c : Setting) (orl : Except String Bool) :
    (loginSection (preseededCredRow c) orl).isOk = true
    ∧ ((loginSection (preseededCredRow c) orl = .ok none) ↔ c.enabled = false)
    ∧ (c.enabled = true → ∀ s, orl = .error s →
        loginSection (preseededCredRow c) orl = .ok (some LoginOutcome.failed)) := by
  unfold loginSection preseededCredRow
  rcases orl with e | b2
  · by_cases hen : c.enabled <;> simp [hen, Except.isOk, Except.toBool]
  · cases b2 <;> by_cases hen : c.enabled <;> simp [hen, Except.isOk, Except.toBool]

theorem hbR_touch_left (y : Event) : hbR Event.touch y := by
  constructor
  · intro _; rfl
  · intro hd
    simp [Event.isDispatchAny] at hd

theorem GoodSeg_append {l1 l2 : List Event} (h1 : GoodSeg l1) (h2 : GoodSeg l2) :
    GoodSeg (l1 ++ l2) := by
  obtain ⟨c1, g1⟩ := h1
  obtain ⟨c2, g2⟩ := h2
  constructor
  · refine List.Chain'.append c1 c2 ?_
    intro x hx y hy
    rw [g1] at hx
    have hxe : x = Event.touch := (by simpa using hx : Event.touch = x).symm
    rw [hxe]
    exact hbR_touch_left y
  · rw [List.getLast?_append, g2]
    rfl

theorem GoodSeg_append_opt {l1 l2 : List Event} (h1 : GoodSeg l1)
    (h2 : l2 = [] ∨ GoodSeg l2) : GoodSeg (l1 ++ l2) := by
  rcases h2 with rfl | h2
  · simpa using h1
  · exact GoodSeg_append h1 h2

theorem GoodSegOpt_append {l1 l2 : List Event} (h1 : l1 = [] ∨ GoodSeg l1)
    (h2 : l2 = [] ∨ GoodSeg l2) : l1 ++ l2 = [] ∨ GoodSeg (l1 ++ l2) := by
  rcases h1 with rfl | h1
  · simpa using h2
  · right
    exact GoodSeg_append_opt h1 h2

theorem channelStep_key_good (ork : Oracle) (ss : Setting) (i j id : Nat)
    (d sym ch : String) (tf : Option String) :
    GoodSeg ((channelStep ork ss i j id d sym tf ch).filter Event.isKey) := by
  unfold channelStep
  split
  · split <;>
      exact ⟨by simp [List.filter_cons, List.filter_nil, Event.isKey,
          List.chain'_cons, hbR, Event.isShotAny, Event.isDispatchAny], rfl⟩
  · exact ⟨by simp [List.filter_cons, List.filter_nil, Event.isKey,
      List.chain'_cons, hbR, Event.isShotAny, Event.isDispatchAny], rfl⟩

theorem runChannels_key_good (ork : Oracle) (ss : Setting) (i id : Nat)
    (d sym : String) (tf : Option String) :
    ∀ (chans : List String) (j : Nat),
    (runChannels ork (some ss) i id d sym tf chans j).1.filter Event.isKey = []
    ∨ GoodSeg ((runChannels ork (some ss) i id d sym tf chans j).1.filter Event.isKey) := by
  intro chans
  induction chans with
  | nil => intro j; left; rfl
  | cons ch rest ih =>
    intro j
    right
    rw [runChannels_cons_some]
    simp only [List.filter_append]
    exact GoodSeg_append_opt (channelStep_key_good ork ss i j id d sym ch tf) (ih (j + 1))

theorem runMessages_key_good (ork : Oracle) (ss : Setting) :
    ∀ (msgs : List QMessage) (s : Nat),
    (runMessages ork (some ss) msgs s).1.filter Event.isKey = []
    ∨ GoodSeg ((runMessages ork (some ss) msgs s).1.filter Event.isKey) := by
  intro msgs
  induction msgs with
  | nil => intro s; left; rfl
  | cons m rest ih =>
    intro s
    rw [runMessages_cons_some]
    simp only [List.filter_append]
    exact GoodSegOpt_append
      (runChannels_key_good ork ss s m.id m.data (symbolOf m.data) m.timeframe
        (channelsOf m.channels) 0)
      (ih (s + 1))

theorem trace_shape_good (evs : List Event)
    (h : evs.filter Event.isKey = [] ∨ GoodSeg (evs.filter Event.isKey)) :
    ((Event.touch :: Event.pollQueue :: evs).head? = some Event.touch)
    ∧ ((Event.touch :: Event.pollQueue :: evs)[1]? = some Event.pollQueue)
    ∧ List.Chain' hbR ((Event.touch :: Event.pollQueue :: evs).filter Event.isKey)
    ∧ ((Event.touch :: Event.pollQueue :: evs).filter Event.isKey).head?
        = some Event.touch
    ∧ ((Event.touch :: Event.pollQueue :: evs).filter Event.isKey).getLast?
        = some Event.touch := by
  have hfe : (Event.touch :: Event.pollQueue :: evs).filter Event.isKey
      = Event.touch :: evs.filter Event.isKey := by
    simp [List.filter_cons, Event.isKey]
  rw [hfe]
  have hone : GoodSeg [Event.touch] := ⟨by simp, rfl⟩
  have hg : GoodSeg ([Event.touch] ++ evs.filter Event.isKey) :=
    GoodSeg_append_opt hone h
  rw [List.singleton_append] at hg
  exact ⟨rfl, by simp, hg.1, rfl, hg.2⟩

/-- C8: in every poll cycle the heartbeat touch runs before the queue poll
(the trace starts `touch, pollQueue`), and on the subsequence of key events
(touches, screenshot attempts, dispatches) every screenshot attempt
immediately follows a heartbeat touch, every dispatch is immediately
followed by one, and the key-event sequence begins and ends with a touch. -/
theorem heartbeat_discipline (br sr : Option Setting) (pending : List QMessage)
    (ork : Oracle) :
    ((processQueue br sr pending ork).1.head? = some Event.touch)
    ∧ ((processQueue br sr pending ork).1[1]? = some Event.pollQueue)
    ∧ List.Chain' hbR ((processQueue br sr pending ork).1.filter Event.isKey)
    ∧ (((processQueue br sr pending ork).1.filter Event.isKey).head?
        = some Event.touch)
    ∧ (((processQueue br sr pending ork).1.filter Event.isKey).getLast?
        = some Event.touch) := by
  rcases br with _ | b
  · exact trace_shape_good [] (Or.inl rfl)
  · rcases sr with _ | ss
    · have hnil : (runMessages ork none pending 0).1.filter Event.isKey = []
          ∨ GoodSeg ((runMessages ork none pending 0).1.filter Event.isKey) := by
        rw [runMessages_none_events]
        exact Or.inl rfl
      exact trace_shape_good (runMessages ork none pending 0).1 hnil
    · exact trace_shape_good (runMessages ork (some ss) pending 0).1
        (runMessages_key_good ork ss pending 0)

end TVWorker
